import Mathlib

/-!
# Verification of the tic-tac-toe room coordinator and game state machine

Shallow embedding of the backend core of `juan10024/tictactoe-test`:

* `backend/internal/core/domain/game.go` — the `Player` and `Game` records;
* `backend/internal/core/services/game_services.go` — `HandleJoinRoom`,
  `MakeMove`, `checkWinner`;
* `backend/internal/core/services/websocket_core_services.go` — the join path
  of `ServeWs` (observer detection and the waiting → in_progress transition);
* the websocket client service (`Client.readPump`) — inbound command
  dispatch, observer policy, and the inline reset block;
* `backend/internal/core/services/websocket_hub_services.go` — the hub
  membership map, `Run` (unregister path) and `broadcast` (backpressure path).

The persistence port (GORM repository from `infra/repository`) is modelled as
an in-memory record `Repo`: an association list of games keyed by room id, a
list of players keyed by numeric id, and a counter for fresh player ids.
`GetByRoomID` preloads the `PlayerX`/`PlayerO` association fields exactly as
the GORM implementation does (`Preload("PlayerX").Preload("PlayerO")`), and a
missing association row is left as the zero `Player` value, as in GORM.
Go `string` boards are embedded as `List Char`; Go `*uint` seat references as
`Option Nat`.
-/

set_option linter.unusedVariables false

/-- Embeds `domain.Player` (id, name and the cumulative counters). -/
structure Player where
  id : Nat
  name : String
  wins : Nat
  draws : Nat
  losses : Nat
deriving Repr, DecidableEq

/-- The Go zero value `domain.Player{}`, used by the source in the seated
checks `existingGame.PlayerX != (domain.Player{})`. -/
def emptyPlayer : Player := ⟨0, "", 0, 0, 0⟩

/-- Embeds `domain.Game`: room id, optional seat references with their
preloaded player snapshots, optional winner reference, status string, the
9-cell board and the current turn symbol. -/
structure Game where
  roomID : String
  playerXID : Option Nat
  playerX : Player
  playerOID : Option Nat
  playerO : Player
  winnerID : Option Nat
  status : String
  board : List Char
  currentTurn : String
deriving Repr, DecidableEq

/-- The in-memory model of the persistence port (`ports.GameRepository`
backed by GORM): games keyed by `roomID`, players keyed by `id`, and the
next fresh player id (`SERIAL`, starting at 1). -/
structure Repo where
  games : List Game
  players : List Player
  nextID : Nat
deriving Repr, DecidableEq

/-- Raw lookup of the game row for a room (no preloading). -/
def findGame (repo : Repo) (roomID : String) : Option Game :=
  repo.games.find? (fun g => g.roomID == roomID)

/-- Embeds `GetPlayerByID`: `db.First(&player, id)`; a missing row yields
`none` (the Go method returns `(nil, nil)` on `ErrRecordNotFound`). -/
def getPlayerByID (repo : Repo) (id : Nat) : Option Player :=
  repo.players.find? (fun p => p.id == id)

/-- Resolves a seat reference the way GORM `Preload` does: a `nil` foreign
key, or a missing player row, leaves the association field at the zero
`Player` value. -/
def loadSeat (repo : Repo) (id? : Option Nat) : Player :=
  match id? with
  | none => emptyPlayer
  | some i => (getPlayerByID repo i).getD emptyPlayer

/-- Embeds `GetByRoomID`:
`db.Preload("PlayerX").Preload("PlayerO").Where("room_id = ?", roomID).First(&game)`. -/
def getByRoomID (repo : Repo) (roomID : String) : Option Game :=
  (findGame repo roomID).map (fun g =>
    { g with playerX := loadSeat repo g.playerXID, playerO := loadSeat repo g.playerOID })

/-- Embeds `UpdatePlayer` (`db.Save(player)`): replaces the row with the
matching primary key. -/
def updatePlayer (repo : Repo) (p : Player) : Repo :=
  { repo with players := repo.players.map (fun q => if q.id == p.id then p else q) }

/-- Embeds `Update` for games (`db.Save(game)`): replaces the row for the
game, keyed here by room id (the model keeps at most one game per room,
which is how `HandleJoinRoom` uses the store). -/
def updateGame (repo : Repo) (g : Game) : Repo :=
  { repo with games := repo.games.map (fun q => if q.roomID == g.roomID then g else q) }

/-- Embeds `Create` for games (`db.Create(game)`). -/
def addGame (repo : Repo) (g : Game) : Repo :=
  { repo with games := repo.games ++ [g] }

/-- Embeds `GetOrCreatePlayerByName`:
`db.Where(domain.Player{Name: name}).FirstOrCreate(&player)` — the first
player row with exactly this name, creating one (with zero counters and a
fresh id) when none exists. -/
def getOrCreatePlayerByName (repo : Repo) (name : String) : Repo × Player :=
  match repo.players.find? (fun p => p.name == name) with
  | some p => (repo, p)
  | none =>
    let p : Player := ⟨repo.nextID, name, 0, 0, 0⟩
    ({ repo with players := repo.players ++ [p], nextID := repo.nextID + 1 }, p)

/-- `game.Board[position]` on the embedded board. The source indexes the
board string directly; all boards the service creates have length exactly 9
and the index is bounds-checked (`0 ≤ position ≤ 8`) before this read, so
the default value is never consulted on reachable states. -/
def boardGet (b : List Char) (i : Nat) : Char :=
  b.getD i ' '

/-- The `winConditions` array of `checkWinner`: 3 rows, 3 columns, 2
diagonals, in the fixed source order. -/
def winConditions : List (Nat × Nat × Nat) :=
  [(0, 1, 2), (3, 4, 5), (6, 7, 8),
   (0, 3, 6), (1, 4, 7), (2, 5, 8),
   (0, 4, 8), (2, 4, 6)]

/-- The loop-body test of `checkWinner`:
`board[c[0]] != ' ' && board[c[0]] == board[c[1]] && board[c[1]] == board[c[2]]`. -/
def tripleWins (b : List Char) (c : Nat × Nat × Nat) : Bool :=
  boardGet b c.1 != ' ' && boardGet b c.1 == boardGet b c.2.1
    && boardGet b c.2.1 == boardGet b c.2.2

/-- The scanning loop of `checkWinner`: first matching triple wins. -/
def checkWinnerAux (b : List Char) : List (Nat × Nat × Nat) → String
  | [] => ""
  | c :: rest =>
    if tripleWins b c then String.mk [boardGet b c.1] else checkWinnerAux b rest

/-- Embeds `checkWinner`: returns the symbol of the first matching triple
(as a one-character string), or `""` when no triple matches. -/
def checkWinner (b : List Char) : String :=
  checkWinnerAux b winConditions

/-- The winner-statistics block of `MakeMove` (the body of
`if game.WinnerID != nil { ... }`): fetch the winner, increment wins, then
determine the loser seat and increment losses. In the source the loser seat
is selected by the pointer comparison `game.WinnerID == game.PlayerXID`,
which is decided by which branch of the preceding assignment ran, i.e. by
`winnerSymbol == "X"`. -/
def applyWinnerStats (repo : Repo) (game : Game) (winnerSymbol : String) : Repo :=
  match game.winnerID with
  | none => repo
  | some wid =>
    match getPlayerByID repo wid with
    | none => repo
    | some w =>
      let repoW := updatePlayer repo { w with wins := w.wins + 1 }
      let loserID := if winnerSymbol = "X" then game.playerOID else game.playerXID
      match loserID with
      | none => repoW
      | some lid =>
        match getPlayerByID repoW lid with
        | none => repoW
        | some l => updatePlayer repoW { l with losses := l.losses + 1 }

/-- The draw-statistics block of `MakeMove`: increment the draw counter of
each seated player in seat order (the second fetch reads the store already
updated by the first, as the source reads the database again). -/
def applyDrawStats (repo : Repo) (game : Game) : Repo :=
  let repoX :=
    match game.playerXID with
    | none => repo
    | some xid =>
      match getPlayerByID repo xid with
      | none => repo
      | some px => updatePlayer repo { px with draws := px.draws + 1 }
  match game.playerOID with
  | none => repoX
  | some oid =>
    match getPlayerByID repoX oid with
    | none => repoX
    | some po => updatePlayer repoX { po with draws := po.draws + 1 }

/-- Embeds `MakeMove`. Validation order, error strings and the mutation /
outcome logic follow the source line by line; the pair returns the store
after the operation together with the result the Go function returns
(`*domain.Game` or an error). Error paths perform no store mutation, as the
source returns before any repository write. -/
def makeMove (repo : Repo) (roomID : String) (playerID : Nat) (position : Int) :
    Repo × Except String Game :=
  match getByRoomID repo roomID with
  | none => (repo, .error "game not found")
  | some game =>
    if game.status ≠ "in_progress" then
      (repo, .error "game is not currently in progress")
    else if position < 0 ∨ 8 < position then
      (repo, .error "invalid move: position is out of bounds")
    else if boardGet game.board position.toNat ≠ ' ' then
      (repo, .error "invalid move: position is already taken")
    else
      let expectedPlayerID := if game.currentTurn = "X" then game.playerXID else game.playerOID
      let expectedSymbol : Char := if game.currentTurn = "X" then 'X' else 'O'
      match expectedPlayerID with
      | none => (repo, .error "it is not your turn")
      | some eid =>
        if playerID ≠ eid then
          (repo, .error "it is not your turn")
        else
          let board1 := game.board.set position.toNat expectedSymbol
          let winnerSymbol := checkWinner board1
          if winnerSymbol ≠ "" then
            let game2 := { game with
              board := board1,
              status := "finished",
              winnerID := if winnerSymbol = "X" then game.playerXID else game.playerOID }
            let repo1 := applyWinnerStats repo game2 winnerSymbol
            (updateGame repo1 game2, .ok game2)
          else if ¬ board1.contains ' ' then
            let game2 := { game with board := board1, status := "finished" }
            let repo1 := applyDrawStats repo game2
            (updateGame repo1 game2, .ok game2)
          else
            let game2 := { game with
              board := board1,
              currentTurn :=
                if game.currentTurn = "X" then "O"
                else if game.currentTurn = "O" then "X" else "" }
            (updateGame repo game2, .ok game2)

/-- Embeds Go `strings.ToLower` structurally over the character list (the
embedded names are ASCII). -/
def strToLower (s : String) : String := String.mk (s.data.map Char.toLower)

/-- Embeds Go `strings.TrimSpace`: strip leading and trailing whitespace. -/
def strTrim (s : String) : String :=
  String.mk (((s.data.dropWhile Char.isWhitespace).reverse.dropWhile
    Char.isWhitespace).reverse)

/-- The two duplicated-name error strings of `HandleJoinRoom` (the seat-O
message repeats the word "already" in the source). -/
def collisionMsgX : String := "a player with this name already exists in the room"

/-- Seat-O collision message (source line 86, with its duplicated word). -/
def collisionMsgO : String := "a player with this name already already exists in the room"

/-- Embeds `HandleJoinRoom`. The concurrent create-retry branch of the
source (running only when `Create` fails on a duplicate key under a race) is
not reachable in this sequential model; every other branch is embedded in
source order. The dereference `*existingGame.PlayerXID` in the seat-O
condition is modelled with default 0 (every game the service stores carries
a seated X, so the default is never consulted on reachable states). -/
def handleJoinRoom (repo : Repo) (roomID playerName : String) :
    Repo × Except String (Game × Player) :=
  if playerName.length = 0 ∨ 15 < playerName.length then
    (repo, .error "player name must be between 1 and 15 characters")
  else
    let rp := getOrCreatePlayerByName repo playerName
    let repo1 := rp.1
    let player := rp.2
    match getByRoomID repo1 roomID with
    | none =>
      let newGame : Game :=
        { roomID := roomID, playerXID := some player.id, playerX := player,
          playerOID := none, playerO := emptyPlayer, winnerID := none,
          status := "waiting", board := "         ".toList, currentTurn := "X" }
      (addGame repo1 newGame, .ok (newGame, player))
    | some existingGame =>
      let normalized := strToLower (strTrim playerName)
      if existingGame.playerX ≠ emptyPlayer ∧ strToLower existingGame.playerX.name = normalized then
        (repo1, .error collisionMsgX)
      else if existingGame.playerO ≠ emptyPlayer ∧ strToLower existingGame.playerO.name = normalized then
        (repo1, .error collisionMsgO)
      else if existingGame.status = "in_progress" ∨
          (existingGame.playerXID ≠ none ∧ existingGame.playerOID ≠ none) then
        (repo1, .ok (existingGame, player))
      else if existingGame.playerOID = none ∧ existingGame.playerXID.getD 0 ≠ player.id then
        let game1 := { existingGame with playerOID := some player.id, playerO := player }
        (updateGame repo1 game1, .ok (game1, player))
      else if existingGame.playerXID = none then
        let game1 := { existingGame with playerXID := some player.id, playerX := player }
        (updateGame repo1 game1, .ok (game1, player))
      else
        (repo1, .ok (existingGame, player))

/-- The observer test of `ServeWs`:
`game.Status == "in_progress" || (XID != nil && *XID != player.ID && OID != nil && *OID != player.ID)`. -/
def wsIsObserver (game : Game) (pid : Nat) : Bool :=
  game.status == "in_progress" ||
    (game.playerXID.isSome && game.playerXID != some pid &&
     game.playerOID.isSome && game.playerOID != some pid)

/-- Embeds the join path of `ServeWs`: `HandleJoinRoom`, the observer flag
computation, and the conditional start of the game (`waiting` with both
seats filled becomes `in_progress` with `CurrentTurn = "X"`, persisted).
Registration and broadcasting carry no game state and are omitted. -/
def serveWsJoin (repo : Repo) (roomID playerName : String) :
    Repo × Except String (Game × Player × Bool) :=
  match handleJoinRoom repo roomID playerName with
  | (repo1, .error e) => (repo1, .error e)
  | (repo1, .ok (game, player)) =>
    let isObserver := wsIsObserver game player.id
    if !isObserver && game.status == "waiting" &&
        game.playerXID.isSome && game.playerOID.isSome then
      let game1 := { game with status := "in_progress", currentTurn := "X" }
      (updateGame repo1 game1, .ok (game1, player, isObserver))
    else
      (repo1, .ok (game, player, isObserver))

/-- The inline reset block of `Client.readPump` (the body after the
observer guard): fetch the game, blank the board, force `in_progress`,
turn `X`, clear the winner, persist. The returned flag records whether a
broadcast follows (it does exactly when the game exists and is updated). -/
def resetGame (repo : Repo) (roomID : String) : Repo × Bool :=
  match getByRoomID repo roomID with
  | none => (repo, false)
  | some game =>
    let game1 := { game with
      board := "         ".toList, status := "in_progress",
      currentTurn := "X", winnerID := none }
    (updateGame repo game1, true)

/-- A connection as `readPump` sees it: room, player id and observer flag. -/
structure ClientCtx where
  room : String
  playerID : Nat
  isObserver : Bool
deriving Repr, DecidableEq

/-- The observable effects of handling one inbound frame: a typed error
frame sent only to the sender, a room-wide state broadcast, or the
direct relay of a play-again frame to the other seated clients. -/
inductive Effect where
  | errorToSender (message : String)
  | broadcast
  | relayToOthers (type : String)
deriving Repr, DecidableEq

/-- One inbound frame after the two-stage JSON parse of `readPump`:
`tagged type position` is a frame that unmarshals into the tagged struct
(`{"type": ..., "payload": {"position": ...}}`); `bareInt n` is a frame
whose whole payload is a bare JSON integer (it fails the struct unmarshal
and succeeds the integer unmarshal); `malformed` fails both. -/
inductive InMsg where
  | tagged (type : String) (position : Int)
  | bareInt (n : Int)
  | malformed
deriving Repr, DecidableEq

/-- Embeds the dispatch of one inbound frame by `Client.readPump`: the
string switch over the tagged type (with its silent default), the observer
guards, and the bare-integer fallback path. Returns the store after the
frame together with the emitted effects. -/
def processMessage (repo : Repo) (c : ClientCtx) (msg : InMsg) : Repo × List Effect :=
  match msg with
  | .tagged t pos =>
    if t = "move" then
      if c.isObserver then
        (repo, [.errorToSender "Observers cannot make moves"])
      else
        match makeMove repo c.room c.playerID pos with
        | (repo1, .error e) => (repo1, [.errorToSender e])
        | (repo1, .ok _) => (repo1, [.broadcast])
    else if t = "reset" then
      if c.isObserver then (repo, [])
      else
        match resetGame repo c.room with
        | (repo1, true) => (repo1, [.broadcast])
        | (repo1, false) => (repo1, [])
    else if t = "confirmGameStart" then
      (repo, [])
    else if t = "playAgainRequest" then
      if c.isObserver then (repo, []) else (repo, [.relayToOthers "playAgainRequest"])
    else if t = "play_again_menu_request" then
      if c.isObserver then (repo, []) else (repo, [.relayToOthers "play_again_menu_request"])
    else
      (repo, [])
  | .bareInt n =>
    if c.isObserver then (repo, [])
    else
      match makeMove repo c.room c.playerID n with
      | (repo1, .error _) => (repo1, [])
      | (repo1, .ok _) => (repo1, [.broadcast])
  | .malformed => (repo, [])

/-- The hub membership state: rooms with their member connection ids, the
set of connections whose 256-slot send buffer is currently full, and the
log of `close(client.send)` executions (one entry per executed close; a
second entry for the same connection is a double close, which panics in
Go). -/
structure HubState where
  rooms : List (String × List Nat)
  fullClients : List Nat
  closes : List Nat
deriving Repr, DecidableEq

/-- Embeds `Hub.broadcast`: for every member of the room, a full send
buffer hits the `default` branch — the hub closes the send channel of that
connection and deletes it from the room; others receive the message. The
room entry itself is kept even when emptied (only `Run` garbage-collects
rooms). -/
def hubBroadcast (h : HubState) (roomID : String) : HubState :=
  match h.rooms.find? (fun r => r.1 == roomID) with
  | none => h
  | some (_, members) =>
    let dropped := members.filter (fun c => h.fullClients.contains c)
    let kept := members.filter (fun c => !h.fullClients.contains c)
    { h with
      rooms := h.rooms.map (fun r => if r.1 == roomID then (r.1, kept) else r),
      closes := h.closes ++ dropped }

/-- Embeds the unregister case of `Hub.Run`: remove the client from its
room if the room exists (deleting the room entry when it empties), then —
unconditionally — `close(client.send)`. -/
def hubUnregister (h : HubState) (roomID : String) (c : Nat) : HubState :=
  let rooms1 :=
    match h.rooms.find? (fun r => r.1 == roomID) with
    | none => h.rooms
    | some (_, members) =>
      let members1 := members.filter (fun x => x != c)
      if members1.isEmpty then h.rooms.filter (fun r => r.1 != roomID)
      else h.rooms.map (fun r => if r.1 == roomID then (r.1, members1) else r)
  { h with rooms := rooms1, closes := h.closes ++ [c] }

/-! ## Store lemmas

Behavior of the repository model under point updates, shared by the
theorems below. -/

/-- Replacing the row with a given key leaves lookups of other keys
unchanged. -/
theorem find_update_ne {α κ : Type} [BEq κ] [LawfulBEq κ] (key : α → κ)
    (l : List α) (p : α) (i : κ) (h : i ≠ key p) :
    (l.map (fun q => if key q == key p then p else q)).find? (fun q => key q == i)
      = l.find? (fun q => key q == i) := by
  induction l with
  | nil => rfl
  | cons a l ih =>
    by_cases ha : key a = key p
    · have h1 : (key p == i) = false := by
        simp only [beq_eq_false_iff_ne]
        exact fun hh => h hh.symm
      have h2 : (key a == i) = false := by
        simp only [beq_eq_false_iff_ne, ha]
        exact fun hh => h hh.symm
      simp [List.find?, ha, h1, h2, ih]
    · have hb : (key a == key p) = false := by simpa using ha
      cases hc : (key a == i) <;> simp [List.find?, hb, hc, ih]

/-- Replacing the row with a given key makes the lookup of that key return
the replacement, provided a row with the key was present. -/
theorem find_update_self {α κ : Type} [BEq κ] [LawfulBEq κ] (key : α → κ)
    (l : List α) (p : α)
    (h : (l.find? (fun q => key q == key p)).isSome) :
    (l.map (fun q => if key q == key p then p else q)).find? (fun q => key q == key p)
      = some p := by
  induction l with
  | nil => simp [List.find?] at h
  | cons a l ih =>
    by_cases ha : (key a == key p) = true
    · simp [List.find?, ha]
    · have hb : (key a == key p) = false := by simpa using ha
      have h1 : (List.find? (fun q => key q == key p) l).isSome = true := by
        simp only [List.find?, hb] at h
        exact h
      simp [List.find?, hb, ih h1]

/-- `UpdatePlayer` does not change any other player row. -/
theorem getPlayerByID_updatePlayer_ne (repo : Repo) (p : Player) (i : Nat)
    (h : i ≠ p.id) :
    getPlayerByID (updatePlayer repo p) i = getPlayerByID repo i :=
  find_update_ne Player.id repo.players p i h

/-- `UpdatePlayer` replaces the row of its player. -/
theorem getPlayerByID_updatePlayer_self (repo : Repo) (p : Player)
    (h : (getPlayerByID repo p.id).isSome) :
    getPlayerByID (updatePlayer repo p) p.id = some p :=
  find_update_self Player.id repo.players p h

/-- `Update` for games replaces the row of its room. -/
theorem findGame_updateGame_self (repo : Repo) (g : Game)
    (h : (findGame repo g.roomID).isSome) :
    findGame (updateGame repo g) g.roomID = some g :=
  find_update_self Game.roomID repo.games g h

/-- A player lookup that succeeds returns a row carrying the looked-up id. -/
theorem getPlayerByID_id {repo : Repo} {i : Nat} {p : Player}
    (h : getPlayerByID repo i = some p) : p.id = i := by
  have := List.find?_some h
  simpa using this

/-- A game lookup that succeeds returns the row of the looked-up room. -/
theorem findGame_roomID {repo : Repo} {roomID : String} {g : Game}
    (h : findGame repo roomID = some g) : g.roomID = roomID := by
  have := List.find?_some h
  simpa using this

/-- `GetByRoomID` is the raw row with the two seats preloaded. -/
theorem getByRoomID_eq {repo : Repo} {roomID : String} {game : Game}
    (h : getByRoomID repo roomID = some game) :
    ∃ g0, findGame repo roomID = some g0 ∧
      game = { g0 with playerX := loadSeat repo g0.playerXID,
                       playerO := loadSeat repo g0.playerOID } := by
  unfold getByRoomID at h
  cases h0 : findGame repo roomID with
  | none => rw [h0] at h; simp at h
  | some g0 =>
    rw [h0] at h
    simp at h
    exact ⟨g0, rfl, h.symm⟩

/-- Preloading does not change the scalar fields of the row. -/
theorem getByRoomID_fields {repo : Repo} {roomID : String} {game : Game}
    (h : getByRoomID repo roomID = some game) :
    game.roomID = roomID ∧
    (∃ g0, findGame repo roomID = some g0 ∧
      game.status = g0.status ∧ game.playerXID = g0.playerXID ∧
      game.playerOID = g0.playerOID ∧ game.winnerID = g0.winnerID ∧
      game.board = g0.board ∧ game.currentTurn = g0.currentTurn) := by
  obtain ⟨g0, h0, rfl⟩ := getByRoomID_eq h
  have hr := findGame_roomID h0
  exact ⟨hr, g0, h0, rfl, rfl, rfl, rfl, rfl, rfl⟩

/-- `Update` for games leaves the player table untouched. -/
theorem updateGame_players (repo : Repo) (g : Game) :
    (updateGame repo g).players = repo.players := rfl

/-- `UpdatePlayer` leaves the game table untouched. -/
theorem updatePlayer_games (repo : Repo) (p : Player) :
    (updatePlayer repo p).games = repo.games := rfl

/-- `GetOrCreatePlayerByName` leaves the game table untouched. -/
theorem getOrCreate_games (repo : Repo) (name : String) :
    (getOrCreatePlayerByName repo name).1.games = repo.games := by
  unfold getOrCreatePlayerByName
  cases repo.players.find? (fun p => p.name == name) <;> rfl

/-- Writing a cell that exists changes exactly that cell to the written
value. -/
theorem boardGet_set_self (l : List Char) (i : Nat) (v : Char)
    (h : i < l.length) : boardGet (l.set i v) i = v := by
  unfold boardGet
  induction l generalizing i with
  | nil => simp at h
  | cons a l ih =>
    cases i with
    | zero => rfl
    | succ j =>
      simp only [List.set, List.getD, List.get?]
      exact ih j (by simpa using h)

/-! ## The win check (`checkWinner`) -/

/-- The scanning loop returns the empty string when no triple in the list
matches. -/
theorem checkWinnerAux_nomatch (b : List Char) (cs : List (Nat × Nat × Nat))
    (h : ∀ c ∈ cs, tripleWins b c = false) : checkWinnerAux b cs = "" := by
  induction cs with
  | nil => rfl
  | cons c cs ih =>
    have hc := h c (List.mem_cons_self c cs)
    rw [checkWinnerAux, if_neg (by simp [hc])]
    exact ih (fun x hx => h x (List.mem_cons_of_mem c hx))

/-- The scanning loop returns the symbol of the first matching triple. -/
theorem checkWinnerAux_first (b : List Char) (cs : List (Nat × Nat × Nat))
    (i : Nat) (c : Nat × Nat × Nat)
    (hget : cs.get? i = some c)
    (hc : tripleWins b c = true)
    (hprev : ∀ j cj, j < i → cs.get? j = some cj → tripleWins b cj = false) :
    checkWinnerAux b cs = String.mk [boardGet b c.1] := by
  induction cs generalizing i with
  | nil => simp at hget
  | cons d cs ih =>
    cases i with
    | zero =>
      simp only [List.get?] at hget
      cases hget
      rw [checkWinnerAux, if_pos (by simp [hc])]
    | succ j =>
      have hd : tripleWins b d = false := hprev 0 d (Nat.succ_pos j) rfl
      rw [checkWinnerAux, if_neg (by simp [hd])]
      exact ih j hget (fun k ck hk hgetk => hprev (k + 1) ck (Nat.succ_lt_succ hk) hgetk)

/-- C2: the win check evaluates exactly the 8 fixed triples
(0,1,2),(3,4,5),(6,7,8),(0,3,6),(1,4,7),(2,5,8),(0,4,8),(2,4,6), in that
fixed order — the result is determined by the first matching triple, and it
is `""` when none matches; a triple wins if and only if all three of its
cells are non-blank and equal; and for the board `"XXX      "` the winner
is `"X"`. -/
theorem checkWinner_fixed_triples :
    (∀ b c, tripleWins b c = true ↔
      (boardGet b c.1 ≠ ' ' ∧ boardGet b c.2.1 ≠ ' ' ∧ boardGet b c.2.2 ≠ ' ' ∧
       boardGet b c.1 = boardGet b c.2.1 ∧ boardGet b c.2.1 = boardGet b c.2.2)) ∧
    (∀ b i c, winConditions.get? i = some c → tripleWins b c = true →
      (∀ j cj, j < i → winConditions.get? j = some cj → tripleWins b cj = false) →
      checkWinner b = String.mk [boardGet b c.1]) ∧
    (∀ b, (∀ c ∈ winConditions, tripleWins b c = false) → checkWinner b = "") ∧
    checkWinner ("XXX      ".toList) = "X" := by
  refine ⟨?_, ?_, ?_, by decide⟩
  · intro b c
    unfold tripleWins
    simp only [Bool.and_eq_true, bne_iff_ne, beq_iff_eq]
    constructor
    · rintro ⟨⟨h1, h2⟩, h3⟩
      exact ⟨h1, h2 ▸ h1, (h2.trans h3) ▸ h1, h2, h3⟩
    · rintro ⟨h1, _, _, h4, h5⟩
      exact ⟨⟨h1, h4⟩, h5⟩
  · intro b i c hget hc hprev
    exact checkWinnerAux_first b winConditions i c hget hc hprev
  · intro b h
    exact checkWinnerAux_nomatch b winConditions h

/-- Witness for `checkWinner_fixed_triples`: the first-match clause applied
to the board `"XXX      "` at the first triple (0,1,2). -/
theorem checkWinner_fixed_triples_witness :
    checkWinner ("XXX      ".toList) =
      String.mk [boardGet ("XXX      ".toList) 0] :=
  checkWinner_fixed_triples.2.1 ("XXX      ".toList) 0 (0, 1, 2) rfl (by decide)
    (fun j cj hj _ => absurd hj (Nat.not_lt_zero j))

/-! ## `MakeMove` validation and frame behavior -/

/-- C1: `MakeMove` mutates the board iff the game is in progress, the
position is in bounds, the cell is blank and the caller is the player
seated at the current turn; each validation failure yields its own
distinct error and leaves the store untouched; and a successful move
writes the symbol of the current turn into exactly the chosen cell. -/
theorem makeMove_guard_frame (repo : Repo) (roomID : String) (pid : Nat)
    (pos : Int) (game : Game)
    (h : getByRoomID repo roomID = some game)
    (hb : game.board.length = 9) :
    ((∃ g2, (makeMove repo roomID pid pos).2 = Except.ok g2) ↔
      (game.status = "in_progress" ∧ 0 ≤ pos ∧ pos ≤ 8 ∧
       boardGet game.board pos.toNat = ' ' ∧
       (if game.currentTurn = "X" then game.playerXID else game.playerOID)
         = some pid)) ∧
    (∀ e, (makeMove repo roomID pid pos).2 = Except.error e →
       (makeMove repo roomID pid pos).1 = repo) ∧
    (game.status ≠ "in_progress" →
       (makeMove repo roomID pid pos).2 =
         Except.error "game is not currently in progress") ∧
    (game.status = "in_progress" → pos < 0 ∨ 8 < pos →
       (makeMove repo roomID pid pos).2 =
         Except.error "invalid move: position is out of bounds") ∧
    (game.status = "in_progress" → 0 ≤ pos → pos ≤ 8 →
       boardGet game.board pos.toNat ≠ ' ' →
       (makeMove repo roomID pid pos).2 =
         Except.error "invalid move: position is already taken") ∧
    (game.status = "in_progress" → 0 ≤ pos → pos ≤ 8 →
       boardGet game.board pos.toNat = ' ' →
       (if game.currentTurn = "X" then game.playerXID else game.playerOID)
         ≠ some pid →
       (makeMove repo roomID pid pos).2 = Except.error "it is not your turn") ∧
    (∀ g2, (makeMove repo roomID pid pos).2 = Except.ok g2 →
       g2.board = game.board.set pos.toNat
         (if game.currentTurn = "X" then 'X' else 'O') ∧
       g2.board ≠ game.board) := by
  have E1 : game.status ≠ "in_progress" →
      makeMove repo roomID pid pos =
        (repo, Except.error "game is not currently in progress") := by
    intro h1
    unfold makeMove
    rw [h]
    simp [h1]
  have E2 : game.status = "in_progress" → (pos < 0 ∨ 8 < pos) →
      makeMove repo roomID pid pos =
        (repo, Except.error "invalid move: position is out of bounds") := by
    intro h1 h2
    unfold makeMove
    rw [h]
    simp [h1, h2]
  have E3 : game.status = "in_progress" → ¬(pos < 0 ∨ 8 < pos) →
      boardGet game.board pos.toNat ≠ ' ' →
      makeMove repo roomID pid pos =
        (repo, Except.error "invalid move: position is already taken") := by
    intro h1 h2 h3
    unfold makeMove
    rw [h]
    simp [h1, h2, h3]
  have E4 : game.status = "in_progress" → ¬(pos < 0 ∨ 8 < pos) →
      boardGet game.board pos.toNat = ' ' →
      (if game.currentTurn = "X" then game.playerXID else game.playerOID)
        ≠ some pid →
      makeMove repo roomID pid pos =
        (repo, Except.error "it is not your turn") := by
    intro h1 h2 h3 hseat
    unfold makeMove
    rw [h]
    cases hE : (if game.currentTurn = "X" then game.playerXID else game.playerOID) with
    | none => simp [h1, h2, h3, hE]
    | some eid =>
      have hne : pid ≠ eid := fun hh => hseat (hh ▸ hE)
      simp [h1, h2, h3, hE, hne]
  have E5 : game.status = "in_progress" → ¬(pos < 0 ∨ 8 < pos) →
      boardGet game.board pos.toNat = ' ' →
      (if game.currentTurn = "X" then game.playerXID else game.playerOID)
        = some pid →
      ∃ g2, (makeMove repo roomID pid pos).2 = Except.ok g2 ∧
        g2.board = game.board.set pos.toNat
          (if game.currentTurn = "X" then 'X' else 'O') := by
    intro h1 h2 h3 hseat
    by_cases hw : checkWinner (game.board.set pos.toNat
        (if game.currentTurn = "X" then 'X' else 'O')) = ""
    · by_cases hf : (game.board.set pos.toNat
          (if game.currentTurn = "X" then 'X' else 'O')).contains ' ' = true
      · refine ⟨{ game with
            board := game.board.set pos.toNat
              (if game.currentTurn = "X" then 'X' else 'O'),
            currentTurn :=
              if game.currentTurn = "X" then "O"
              else if game.currentTurn = "O" then "X" else "" }, ?_, rfl⟩
        have hf2 : ' ' ∈ game.board.set pos.toNat
            (if game.currentTurn = "X" then 'X' else 'O') := by
          simpa using hf
        unfold makeMove
        rw [h]
        simp [h1, h2, h3, hseat, hw, hf2]
      · refine ⟨{ game with
            board := game.board.set pos.toNat
              (if game.currentTurn = "X" then 'X' else 'O'),
            status := "finished" }, ?_, rfl⟩
        have hf2 : ' ' ∉ game.board.set pos.toNat
            (if game.currentTurn = "X" then 'X' else 'O') := by
          simpa using hf
        unfold makeMove
        rw [h]
        simp [h1, h2, h3, hseat, hw, hf2]
    · refine ⟨{ game with
          board := game.board.set pos.toNat
            (if game.currentTurn = "X" then 'X' else 'O'),
          status := "finished",
          winnerID :=
            if checkWinner (game.board.set pos.toNat
                (if game.currentTurn = "X" then 'X' else 'O')) = "X"
            then game.playerXID else game.playerOID }, ?_, rfl⟩
      unfold makeMove
      rw [h]
      simp [h1, h2, h3, hseat, hw]
  refine ⟨?_, ?_, fun h1 => by rw [E1 h1], fun h1 h2 => by rw [E2 h1 h2],
    fun h1 h2 h3 h4 => by rw [E3 h1 (by omega) h4], ?_, ?_⟩
  · constructor
    · rintro ⟨g2, hg2⟩
      by_cases h1 : game.status = "in_progress"
      · by_cases h2 : pos < 0 ∨ 8 < pos
        · rw [E2 h1 h2] at hg2
          simp at hg2
        · by_cases h3 : boardGet game.board pos.toNat = ' '
          · by_cases hseat : (if game.currentTurn = "X" then game.playerXID
                else game.playerOID) = some pid
            · exact ⟨h1, by omega, by omega, h3, hseat⟩
            · rw [E4 h1 h2 h3 hseat] at hg2
              simp at hg2
          · rw [E3 h1 h2 h3] at hg2
            simp at hg2
      · rw [E1 h1] at hg2
        simp at hg2
    · rintro ⟨h1, h2, h3, h4, hseat⟩
      obtain ⟨g2, hg2, _⟩ := E5 h1 (by omega) h4 hseat
      exact ⟨g2, hg2⟩
  · intro e he
    by_cases h1 : game.status = "in_progress"
    · by_cases h2 : pos < 0 ∨ 8 < pos
      · rw [E2 h1 h2]
      · by_cases h3 : boardGet game.board pos.toNat = ' '
        · by_cases hseat : (if game.currentTurn = "X" then game.playerXID
              else game.playerOID) = some pid
          · obtain ⟨g2, hg2, _⟩ := E5 h1 h2 h3 hseat
            rw [hg2] at he
            simp at he
          · rw [E4 h1 h2 h3 hseat]
        · rw [E3 h1 h2 h3]
    · rw [E1 h1]
  · intro h1 h2 h3 h4 hseat
    rw [E4 h1 (by omega) h4 hseat]
  · intro g2 hg2
    by_cases h1 : game.status = "in_progress"
    · by_cases h2 : pos < 0 ∨ 8 < pos
      · rw [E2 h1 h2] at hg2
        simp at hg2
      · by_cases h3 : boardGet game.board pos.toNat = ' '
        · by_cases hseat : (if game.currentTurn = "X" then game.playerXID
              else game.playerOID) = some pid
          · obtain ⟨g2a, hg2a, hba⟩ := E5 h1 h2 h3 hseat
            rw [hg2a] at hg2
            have hg : g2a = g2 := by simpa using hg2
            subst hg
            refine ⟨hba, ?_⟩
            intro hcontra
            have hlt : pos.toNat < game.board.length := by
              rw [hb]; omega
            have hgot := boardGet_set_self game.board pos.toNat
              (if game.currentTurn = "X" then 'X' else 'O') hlt
            have hba2 := hba
            rw [hcontra] at hba2
            rw [← hba2] at hgot
            rw [h3] at hgot
            by_cases hx : game.currentTurn = "X" <;> simp [hx] at hgot
          · rw [E4 h1 h2 h3 hseat] at hg2
            simp at hg2
        · rw [E3 h1 h2 h3] at hg2
          simp at hg2
    · rw [E1 h1] at hg2
      simp at hg2

/-- A two-player in-progress room used as concrete input. -/
def aliceP : Player := ⟨1, "Alice", 0, 0, 0⟩

/-- Second seated player of the concrete room. -/
def bobP : Player := ⟨2, "Bob", 0, 0, 0⟩

/-- The in-progress game of the concrete room (Alice X to move). -/
def gameLive : Game :=
  ⟨"r1", some 1, aliceP, some 2, bobP, none, "in_progress", "         ".toList, "X"⟩

/-- Concrete store with the in-progress room and both players. -/
def repoLive : Repo := ⟨[gameLive], [aliceP, bobP], 3⟩

/-- Witness for `makeMove_guard_frame`: in the concrete in-progress room it
is the turn of seat X (Alice, id 1), so a move by Bob (id 2) fails with the
turn error. -/
theorem makeMove_guard_frame_witness :
    (makeMove repoLive "r1" 2 4).2 = Except.error "it is not your turn" :=
  (makeMove_guard_frame repoLive "r1" 2 4 gameLive (by decide)
      (by decide)).2.2.2.2.2.1 (by decide) (by decide) (by decide) (by decide)
    (by decide)

/-! ## `MakeMove` success paths -/

/-- A validated move whose resulting board has a matching triple takes the
winner branch of `MakeMove`. -/
theorem makeMove_success_win (repo : Repo) (roomID : String) (pid : Nat)
    (pos : Int) (game : Game) (b1 : List Char) (g2 : Game)
    (h : getByRoomID repo roomID = some game)
    (h1 : game.status = "in_progress")
    (h2 : ¬(pos < 0 ∨ 8 < pos))
    (h3 : boardGet game.board pos.toNat = ' ')
    (hseat : (if game.currentTurn = "X" then game.playerXID else game.playerOID)
      = some pid)
    (hb1 : b1 = game.board.set pos.toNat
      (if game.currentTurn = "X" then 'X' else 'O'))
    (hg2 : g2 =
      { game with
          board := b1, status := "finished",
          winnerID := if checkWinner b1 = "X" then game.playerXID
            else game.playerOID })
    (hws : checkWinner b1 ≠ "") :
    makeMove repo roomID pid pos =
      (updateGame (applyWinnerStats repo g2 (checkWinner b1)) g2, Except.ok g2) := by
  subst hb1
  subst hg2
  unfold makeMove
  rw [h]
  simp [h1, h2, h3, hseat, hws]

/-- A validated move whose resulting board has no matching triple and no
blank cell takes the draw branch of `MakeMove`. -/
theorem makeMove_success_draw (repo : Repo) (roomID : String) (pid : Nat)
    (pos : Int) (game : Game) (b1 : List Char) (g2 : Game)
    (h : getByRoomID repo roomID = some game)
    (h1 : game.status = "in_progress")
    (h2 : ¬(pos < 0 ∨ 8 < pos))
    (h3 : boardGet game.board pos.toNat = ' ')
    (hseat : (if game.currentTurn = "X" then game.playerXID else game.playerOID)
      = some pid)
    (hb1 : b1 = game.board.set pos.toNat
      (if game.currentTurn = "X" then 'X' else 'O'))
    (hg2 : g2 = { game with board := b1, status := "finished" })
    (hws : checkWinner b1 = "")
    (hfull : ' ' ∉ b1) :
    makeMove repo roomID pid pos =
      (updateGame (applyDrawStats repo g2) g2, Except.ok g2) := by
  subst hb1
  subst hg2
  unfold makeMove
  rw [h]
  simp [h1, h2, h3, hseat, hws, hfull]

/-- The winner-statistics block resolves to two player updates when winner
and loser rows exist and are distinct: wins of the winner and losses of
the loser each grow by one. -/
theorem applyWinnerStats_eq (repo : Repo) (game2 : Game) (ws : String)
    (wid : Nat) (hwid : game2.winnerID = some wid)
    (wp : Player) (hwp : getPlayerByID repo wid = some wp)
    (lid : Nat) (hlid : (if ws = "X" then game2.playerOID else game2.playerXID)
      = some lid)
    (lp : Player) (hlp : getPlayerByID repo lid = some lp)
    (hlw : lid ≠ wid) :
    applyWinnerStats repo game2 ws =
      updatePlayer (updatePlayer repo { wp with wins := wp.wins + 1 })
        { lp with losses := lp.losses + 1 } := by
  unfold applyWinnerStats
  simp only [hwid, hwp, hlid]
  have hW : getPlayerByID (updatePlayer repo { wp with wins := wp.wins + 1 }) lid
      = some lp := by
    rw [getPlayerByID_updatePlayer_ne repo { wp with wins := wp.wins + 1 } lid
      (show lid ≠ wp.id by rw [getPlayerByID_id hwp]; exact hlw)]
    exact hlp
  simp only [hW]

/-- The draw-statistics block resolves to two player updates when both
seats are occupied by distinct existing players: both draw counters grow
by one. -/
theorem applyDrawStats_eq (repo : Repo) (game2 : Game)
    (xid : Nat) (hx : game2.playerXID = some xid)
    (px : Player) (hpx : getPlayerByID repo xid = some px)
    (oid : Nat) (ho : game2.playerOID = some oid)
    (po : Player) (hpo : getPlayerByID repo oid = some po)
    (hxo : oid ≠ xid) :
    applyDrawStats repo game2 =
      updatePlayer (updatePlayer repo { px with draws := px.draws + 1 })
        { po with draws := po.draws + 1 } := by
  unfold applyDrawStats
  simp only [hx, hpx, ho]
  have hO : getPlayerByID (updatePlayer repo { px with draws := px.draws + 1 }) oid
      = some po := by
    rw [getPlayerByID_updatePlayer_ne repo { px with draws := px.draws + 1 } oid
      (show oid ≠ px.id by rw [getPlayerByID_id hpx]; exact hxo)]
    exact hpo
  simp only [hO]

/-- C8: a move that produces a winning triple finishes the game, sets the
winner to the seat whose symbol matches the triple, increments the wins of
the winning player and the losses of the opposing seated player by exactly
one, persists both updates and the finished game, and touches no other
player row. -/
theorem makeMove_win_updates (repo : Repo) (roomID : String) (pid : Nat)
    (pos : Int) (game : Game) (b1 : List Char)
    (h : getByRoomID repo roomID = some game)
    (h1 : game.status = "in_progress")
    (h2 : ¬(pos < 0 ∨ 8 < pos))
    (h3 : boardGet game.board pos.toNat = ' ')
    (hseat : (if game.currentTurn = "X" then game.playerXID else game.playerOID)
      = some pid)
    (hb1 : b1 = game.board.set pos.toNat
      (if game.currentTurn = "X" then 'X' else 'O'))
    (hws : checkWinner b1 ≠ "")
    (wid : Nat)
    (hwid : (if checkWinner b1 = "X" then game.playerXID else game.playerOID)
      = some wid)
    (wp : Player) (hwp : getPlayerByID repo wid = some wp)
    (lid : Nat)
    (hlid : (if checkWinner b1 = "X" then game.playerOID else game.playerXID)
      = some lid)
    (lp : Player) (hlp : getPlayerByID repo lid = some lp)
    (hlw : lid ≠ wid) :
    (makeMove repo roomID pid pos).2 =
      Except.ok { game with
                    board := b1, status := "finished", winnerID := some wid } ∧
    getPlayerByID (makeMove repo roomID pid pos).1 wid =
      some { wp with wins := wp.wins + 1 } ∧
    getPlayerByID (makeMove repo roomID pid pos).1 lid =
      some { lp with losses := lp.losses + 1 } ∧
    (∀ j, j ≠ wid → j ≠ lid →
      getPlayerByID (makeMove repo roomID pid pos).1 j = getPlayerByID repo j) ∧
    findGame (makeMove repo roomID pid pos).1 roomID =
      some { game with
               board := b1, status := "finished", winnerID := some wid } := by
  have hE := makeMove_success_win repo roomID pid pos game b1 _ h h1 h2 h3
    hseat hb1 rfl hws
  rw [hwid] at hE
  have hstats := applyWinnerStats_eq repo
    { game with board := b1, status := "finished", winnerID := some wid }
    (checkWinner b1) wid rfl wp hwp lid hlid lp hlp hlw
  rw [hstats] at hE
  have hwpid : wp.id = wid := getPlayerByID_id hwp
  have hlpid : lp.id = lid := getPlayerByID_id hlp
  refine ⟨?_, ?_, ?_, ?_, ?_⟩
  · rw [hE]
  · rw [hE]
    show getPlayerByID
      (updatePlayer (updatePlayer repo { wp with wins := wp.wins + 1 })
        { lp with losses := lp.losses + 1 }) wid =
      some { wp with wins := wp.wins + 1 }
    rw [getPlayerByID_updatePlayer_ne _ { lp with losses := lp.losses + 1 } wid
      (show wid ≠ lp.id by rw [hlpid]; exact Ne.symm hlw)]
    have hs := getPlayerByID_updatePlayer_self repo { wp with wins := wp.wins + 1 }
      (by show (getPlayerByID repo wp.id).isSome = true
          rw [hwpid, hwp]; rfl)
    have hs2 : getPlayerByID (updatePlayer repo { wp with wins := wp.wins + 1 }) wid
        = some { wp with wins := wp.wins + 1 } := by
      rw [← hwpid]; exact hs
    exact hs2
  · rw [hE]
    show getPlayerByID
      (updatePlayer (updatePlayer repo { wp with wins := wp.wins + 1 })
        { lp with losses := lp.losses + 1 }) lid =
      some { lp with losses := lp.losses + 1 }
    have hprev : getPlayerByID (updatePlayer repo { wp with wins := wp.wins + 1 }) lid
        = some lp := by
      rw [getPlayerByID_updatePlayer_ne repo { wp with wins := wp.wins + 1 } lid
        (show lid ≠ wp.id by rw [hwpid]; exact hlw)]
      exact hlp
    have hs := getPlayerByID_updatePlayer_self
      (updatePlayer repo { wp with wins := wp.wins + 1 })
      { lp with losses := lp.losses + 1 }
      (by show (getPlayerByID (updatePlayer repo { wp with wins := wp.wins + 1 })
            lp.id).isSome = true
          rw [hlpid, hprev]; rfl)
    have hs2 : getPlayerByID
        (updatePlayer (updatePlayer repo { wp with wins := wp.wins + 1 })
          { lp with losses := lp.losses + 1 }) lid =
        some { lp with losses := lp.losses + 1 } := by
      rw [← hlpid]; exact hs
    exact hs2
  · intro j hjw hjl
    rw [hE]
    show getPlayerByID
      (updatePlayer (updatePlayer repo { wp with wins := wp.wins + 1 })
        { lp with losses := lp.losses + 1 }) j = getPlayerByID repo j
    rw [getPlayerByID_updatePlayer_ne _ { lp with losses := lp.losses + 1 } j
      (show j ≠ lp.id by rw [hlpid]; exact hjl)]
    rw [getPlayerByID_updatePlayer_ne repo { wp with wins := wp.wins + 1 } j
      (show j ≠ wp.id by rw [hwpid]; exact hjw)]
  · rw [hE]
    have hroom : game.roomID = roomID := (getByRoomID_fields h).1
    obtain ⟨g0, h0, _⟩ := getByRoomID_eq h
    have hsome : (findGame
        (updatePlayer (updatePlayer repo { wp with wins := wp.wins + 1 })
          { lp with losses := lp.losses + 1 })
        (Game.roomID { game with
          board := b1, status := "finished", winnerID := some wid })).isSome
        = true := by
      show (findGame repo game.roomID).isSome = true
      rw [hroom, h0]; rfl
    have hself := findGame_updateGame_self
      (updatePlayer (updatePlayer repo { wp with wins := wp.wins + 1 })
        { lp with losses := lp.losses + 1 })
      { game with board := b1, status := "finished", winnerID := some wid } hsome
    rw [← hroom]
    exact hself

/-- A room one move away from an X win (triple 0,1,2), used as concrete
input. -/
def gameWin : Game :=
  ⟨"r1", some 1, aliceP, some 2, bobP, none, "in_progress", "XX OO    ".toList, "X"⟩

/-- Concrete store for the winning-move scenario. -/
def repoWin : Repo := ⟨[gameWin], [aliceP, bobP], 3⟩

/-- Witness for `makeMove_win_updates`: Alice (X) completes the top row;
her wins counter becomes 1 in the persisted store. -/
theorem makeMove_win_updates_witness :
    getPlayerByID (makeMove repoWin "r1" 1 2).1 1 =
      some { aliceP with wins := aliceP.wins + 1 } :=
  (makeMove_win_updates repoWin "r1" 1 2 gameWin ("XXXOO    ".toList)
    (by decide) (by decide) (by decide) (by decide) (by decide) (by decide)
    (by decide) 1 (by decide) aliceP (by decide) 2 (by decide) bobP (by decide)
    (by decide)).2.1

/-- C3 (amended): a valid move that fills the last blank cell of a board
with no matching triple — such as completing `"XOXXOOOXX"` — finishes the
game with the winner unset and increments both seated players draw
counters by exactly one, persisted; no other player row changes. The board
`"XOXOXOXOX"` named by the original claim is not such a board: it contains
the matching diagonal (0,4,8) for X (see
`makeMove_drawExample_counterexample`). -/
theorem makeMove_draw_updates (repo : Repo) (roomID : String) (pid : Nat)
    (pos : Int) (game : Game) (b1 : List Char)
    (h : getByRoomID repo roomID = some game)
    (h1 : game.status = "in_progress")
    (h2 : ¬(pos < 0 ∨ 8 < pos))
    (h3 : boardGet game.board pos.toNat = ' ')
    (hseat : (if game.currentTurn = "X" then game.playerXID else game.playerOID)
      = some pid)
    (hb1 : b1 = game.board.set pos.toNat
      (if game.currentTurn = "X" then 'X' else 'O'))
    (hws : checkWinner b1 = "")
    (hfull : ' ' ∉ b1)
    (hwn : game.winnerID = none)
    (xid : Nat) (hx : game.playerXID = some xid)
    (px : Player) (hpx : getPlayerByID repo xid = some px)
    (oid : Nat) (ho : game.playerOID = some oid)
    (po : Player) (hpo : getPlayerByID repo oid = some po)
    (hxo : oid ≠ xid) :
    (makeMove repo roomID pid pos).2 =
      Except.ok { game with board := b1, status := "finished" } ∧
    (Game.winnerID { game with board := b1, status := "finished" }) = none ∧
    getPlayerByID (makeMove repo roomID pid pos).1 xid =
      some { px with draws := px.draws + 1 } ∧
    getPlayerByID (makeMove repo roomID pid pos).1 oid =
      some { po with draws := po.draws + 1 } ∧
    (∀ j, j ≠ xid → j ≠ oid →
      getPlayerByID (makeMove repo roomID pid pos).1 j = getPlayerByID repo j) ∧
    findGame (makeMove repo roomID pid pos).1 roomID =
      some { game with board := b1, status := "finished" } := by
  have hE := makeMove_success_draw repo roomID pid pos game b1 _ h h1 h2 h3
    hseat hb1 rfl hws hfull
  have hstats := applyDrawStats_eq repo
    { game with board := b1, status := "finished" }
    xid hx px hpx oid ho po hpo hxo
  rw [hstats] at hE
  have hxid : px.id = xid := getPlayerByID_id hpx
  have hoid : po.id = oid := getPlayerByID_id hpo
  refine ⟨?_, ?_, ?_, ?_, ?_, ?_⟩
  · rw [hE]
  · exact hwn
  · rw [hE]
    show getPlayerByID
      (updatePlayer (updatePlayer repo { px with draws := px.draws + 1 })
        { po with draws := po.draws + 1 }) xid =
      some { px with draws := px.draws + 1 }
    rw [getPlayerByID_updatePlayer_ne _ { po with draws := po.draws + 1 } xid
      (show xid ≠ po.id by rw [hoid]; exact Ne.symm hxo)]
    have hs := getPlayerByID_updatePlayer_self repo { px with draws := px.draws + 1 }
      (by show (getPlayerByID repo px.id).isSome = true
          rw [hxid, hpx]; rfl)
    have hs2 : getPlayerByID (updatePlayer repo { px with draws := px.draws + 1 }) xid
        = some { px with draws := px.draws + 1 } := by
      rw [← hxid]; exact hs
    exact hs2
  · rw [hE]
    show getPlayerByID
      (updatePlayer (updatePlayer repo { px with draws := px.draws + 1 })
        { po with draws := po.draws + 1 }) oid =
      some { po with draws := po.draws + 1 }
    have hprev : getPlayerByID (updatePlayer repo { px with draws := px.draws + 1 }) oid
        = some po := by
      rw [getPlayerByID_updatePlayer_ne repo { px with draws := px.draws + 1 } oid
        (show oid ≠ px.id by rw [hxid]; exact hxo)]
      exact hpo
    have hs := getPlayerByID_updatePlayer_self
      (updatePlayer repo { px with draws := px.draws + 1 })
      { po with draws := po.draws + 1 }
      (by show (getPlayerByID (updatePlayer repo { px with draws := px.draws + 1 })
            po.id).isSome = true
          rw [hoid, hprev]; rfl)
    have hs2 : getPlayerByID
        (updatePlayer (updatePlayer repo { px with draws := px.draws + 1 })
          { po with draws := po.draws + 1 }) oid =
        some { po with draws := po.draws + 1 } := by
      rw [← hoid]; exact hs
    exact hs2
  · intro j hjx hjo
    rw [hE]
    show getPlayerByID
      (updatePlayer (updatePlayer repo { px with draws := px.draws + 1 })
        { po with draws := po.draws + 1 }) j = getPlayerByID repo j
    rw [getPlayerByID_updatePlayer_ne _ { po with draws := po.draws + 1 } j
      (show j ≠ po.id by rw [hoid]; exact hjo)]
    rw [getPlayerByID_updatePlayer_ne repo { px with draws := px.draws + 1 } j
      (show j ≠ px.id by rw [hxid]; exact hjx)]
  · rw [hE]
    have hroom : game.roomID = roomID := (getByRoomID_fields h).1
    obtain ⟨g0, h0, _⟩ := getByRoomID_eq h
    have hsome : (findGame
        (updatePlayer (updatePlayer repo { px with draws := px.draws + 1 })
          { po with draws := po.draws + 1 })
        (Game.roomID { game with board := b1, status := "finished" })).isSome
        = true := by
      show (findGame repo game.roomID).isSome = true
      rw [hroom, h0]; rfl
    have hself := findGame_updateGame_self
      (updatePlayer (updatePlayer repo { px with draws := px.draws + 1 })
        { po with draws := po.draws + 1 })
      { game with board := b1, status := "finished" } hsome
    rw [← hroom]
    exact hself

/-- A room one move away from a genuine draw (`"XOXXOOOXX"`), X to move at
cell 8. -/
def gameDraw : Game :=
  ⟨"r1", some 1, aliceP, some 2, bobP, none, "in_progress", "XOXXOOOX ".toList, "X"⟩

/-- Concrete store for the draw scenario. -/
def repoDraw : Repo := ⟨[gameDraw], [aliceP, bobP], 3⟩

/-- Witness for `makeMove_draw_updates`: Alice completes the genuine draw
board `"XOXXOOOXX"`; her draw counter becomes 1 in the persisted store. -/
theorem makeMove_draw_updates_witness :
    getPlayerByID (makeMove repoDraw "r1" 1 8).1 1 =
      some { aliceP with draws := aliceP.draws + 1 } :=
  (makeMove_draw_updates repoDraw "r1" 1 8 gameDraw ("XOXXOOOXX".toList)
    (by decide) (by decide) (by decide) (by decide) (by decide) (by decide)
    (by decide) (by decide) (by decide) 1 (by decide) aliceP (by decide) 2
    (by decide) bobP (by decide) (by decide)).2.2.1

/-- A room whose board is `"XOXOXOXO "` with X to move: placing X at cell 8
produces exactly the board `"XOXOXOXOX"` named by the claim. -/
def gameXOXO : Game :=
  ⟨"r1", some 1, aliceP, some 2, bobP, none, "in_progress", "XOXOXOXO ".toList, "X"⟩

/-- Concrete store for the `"XOXOXOXOX"` scenario. -/
def repoXOXO : Repo := ⟨[gameXOXO], [aliceP, bobP], 3⟩

/-- Counterexample to C3 as stated: on the board `"XOXOXOXOX"` the diagonal
triple (0,4,8) matches for X, so the move completing this board does not
end in a draw — the winner is set to seat X, the wins and losses counters
move, and no draw counter changes. -/
theorem makeMove_drawExample_counterexample :
    checkWinner ("XOXOXOXOX".toList) = "X" ∧
    (makeMove repoXOXO "r1" 1 8).2 =
      Except.ok { gameXOXO with
                    board := "XOXOXOXOX".toList, status := "finished",
                    winnerID := some 1 } ∧
    getPlayerByID (makeMove repoXOXO "r1" 1 8).1 1 = some ⟨1, "Alice", 1, 0, 0⟩ ∧
    getPlayerByID (makeMove repoXOXO "r1" 1 8).1 2 = some ⟨2, "Bob", 0, 0, 1⟩ := by
  refine ⟨by decide, by rfl, by decide, by decide⟩

/-! ## `HandleJoinRoom` on an existing room -/

/-- Unfolds `HandleJoinRoom` on an existing room into its six outcomes:
seat-X name collision, seat-O name collision, observer attachment
(in progress or both seats taken), seating as O, the defensive seating as
X, and the fallback observer attachment. -/
theorem handleJoinRoom_existing (repo : Repo) (roomID name : String) (g : Game)
    (hg : findGame repo roomID = some g)
    (hlen : ¬(name.length = 0 ∨ 15 < name.length)) :
    handleJoinRoom repo roomID name =
      (let rp := getOrCreatePlayerByName repo name
       let gP : Game := { g with playerX := loadSeat rp.1 g.playerXID,
                                 playerO := loadSeat rp.1 g.playerOID }
       if loadSeat rp.1 g.playerXID ≠ emptyPlayer ∧
           strToLower (loadSeat rp.1 g.playerXID).name = strToLower (strTrim name) then
         (rp.1, Except.error collisionMsgX)
       else if loadSeat rp.1 g.playerOID ≠ emptyPlayer ∧
           strToLower (loadSeat rp.1 g.playerOID).name = strToLower (strTrim name) then
         (rp.1, Except.error collisionMsgO)
       else if g.status = "in_progress" ∨
           (g.playerXID ≠ none ∧ g.playerOID ≠ none) then
         (rp.1, Except.ok (gP, rp.2))
       else if g.playerOID = none ∧ g.playerXID.getD 0 ≠ rp.2.id then
         (updateGame rp.1 { gP with playerOID := some rp.2.id, playerO := rp.2 },
          Except.ok ({ gP with playerOID := some rp.2.id, playerO := rp.2 }, rp.2))
       else if g.playerXID = none then
         (updateGame rp.1 { gP with playerXID := some rp.2.id, playerX := rp.2 },
          Except.ok ({ gP with playerXID := some rp.2.id, playerX := rp.2 }, rp.2))
       else
         (rp.1, Except.ok (gP, rp.2))) := by
  have hgames : findGame (getOrCreatePlayerByName repo name).1 roomID = some g := by
    unfold findGame
    rw [getOrCreate_games]
    exact hg
  have hget : getByRoomID (getOrCreatePlayerByName repo name).1 roomID =
      some { g with
               playerX := loadSeat (getOrCreatePlayerByName repo name).1 g.playerXID,
               playerO := loadSeat (getOrCreatePlayerByName repo name).1 g.playerOID } := by
    unfold getByRoomID
    rw [hgames]
    rfl
  unfold handleJoinRoom
  rw [if_neg hlen]
  simp only [hget]

/-! ## The `ServeWs` join path -/

/-- C4: when a join fills the second seat of a waiting room, the `ServeWs`
join path transitions the game to `in_progress` with `currentTurn = "X"`. -/
theorem serveWs_second_join_starts (repo : Repo) (roomID name : String) (g : Game)
    (hg : findGame repo roomID = some g)
    (hw : g.status = "waiting")
    (ho : g.playerOID = none)
    (game1 : Game) (player : Player) (b : Bool)
    (hres : (serveWsJoin repo roomID name).2 = Except.ok (game1, player, b))
    (hx : game1.playerXID ≠ none)
    (hoo : game1.playerOID ≠ none) :
    game1.status = "in_progress" ∧ game1.currentTurn = "X" := by
  by_cases hlen : name.length = 0 ∨ 15 < name.length
  · exfalso
    unfold serveWsJoin handleJoinRoom at hres
    rw [if_pos hlen] at hres
    simp at hres
  · unfold serveWsJoin at hres
    simp only [handleJoinRoom_existing repo roomID name g hg hlen] at hres
    by_cases hc1 : (loadSeat (getOrCreatePlayerByName repo name).1 g.playerXID
        ≠ emptyPlayer ∧
        strToLower (loadSeat (getOrCreatePlayerByName repo name).1 g.playerXID).name
          = strToLower (strTrim name))
    · rw [if_pos hc1] at hres
      simp at hres
    · rw [if_neg hc1] at hres
      by_cases hc2 : (loadSeat (getOrCreatePlayerByName repo name).1 g.playerOID
          ≠ emptyPlayer ∧
          strToLower (loadSeat (getOrCreatePlayerByName repo name).1 g.playerOID).name
            = strToLower (strTrim name))
      · rw [if_pos hc2] at hres
        simp at hres
      · rw [if_neg hc2] at hres
        have hobs : ¬(g.status = "in_progress" ∨
            (g.playerXID ≠ none ∧ g.playerOID ≠ none)) := by
          simp [hw, ho]
        rw [if_neg hobs] at hres
        by_cases hseatO : (g.playerOID = none ∧
            g.playerXID.getD 0 ≠ (getOrCreatePlayerByName repo name).2.id)
        · rw [if_pos hseatO] at hres
          cases hxg : g.playerXID with
          | none =>
            exfalso
            simp [wsIsObserver, hw, hxg] at hres
            obtain ⟨h1, _, _⟩ := hres
            exact hx (by rw [← h1])
          | some xid =>
            simp [wsIsObserver, hw, hxg] at hres
            obtain ⟨h1, _, _⟩ := hres
            rw [← h1]
            exact ⟨rfl, rfl⟩
        · rw [if_neg hseatO] at hres
          by_cases hxnil : g.playerXID = none
          · rw [if_pos hxnil] at hres
            exfalso
            simp [wsIsObserver, hw, ho, hxnil] at hres
            obtain ⟨h1, _, _⟩ := hres
            exact hoo (by rw [← h1])
          · rw [if_neg hxnil] at hres
            exfalso
            simp [wsIsObserver, hw, ho] at hres
            obtain ⟨h1, _, _⟩ := hres
            exact hoo (by rw [← h1])


/-- The empty store: no games, no players, next player id 1. -/
def repoStart : Repo := ⟨[], [], 1⟩

/-- The store after Alice joins the empty room r1 (seat X, waiting). -/
def repoAfterAlice : Repo := (serveWsJoin repoStart "r1" "Alice").1

/-- The waiting game after the first join of Scenario A. -/
def gAliceWaiting : Game :=
  ⟨"r1", some 1, ⟨1, "Alice", 0, 0, 0⟩, none, emptyPlayer, none, "waiting",
    "         ".toList, "X"⟩

/-- The game after Bob fills seat O in Scenario A. -/
def gBobJoined : Game :=
  ⟨"r1", some 1, ⟨1, "Alice", 0, 0, 0⟩, some 2, ⟨2, "Bob", 0, 0, 0⟩, none,
    "in_progress", "         ".toList, "X"⟩

/-- Witness for `serveWs_second_join_starts`, which is Scenario A of the
spec: Alice joins the empty room r1 (seat X, status waiting), then Bob
joins; the resulting game is in progress with turn X. -/
theorem serveWs_second_join_starts_witness :
    gBobJoined.status = "in_progress" ∧ gBobJoined.currentTurn = "X" :=
  serveWs_second_join_starts repoAfterAlice "r1" "Bob" gAliceWaiting
    (by decide) (by decide) (by decide) gBobJoined ⟨2, "Bob", 0, 0, 0⟩ false
    (by rfl) (by decide) (by decide)

/-- C7 (amended): on an existing room, `HandleJoinRoom` returns a
name-collision error iff the joiner name (whitespace-trimmed) equals a
seated player name case-insensitively — including when the joiner is that
seated player, who is therefore rejected rather than attached as an
observer; with no collision, an open seat O and a joiner distinct from
seat X, the joiner is seated as O; with no collision and the game in
progress or both seats taken, the joiner is attached as a read-only
observer with the store and game unchanged. -/
theorem handleJoinRoom_join_policy (repo : Repo) (roomID name : String)
    (g : Game) (rp1 : Repo) (rp2 : Player) (px po : Player)
    (hg : findGame repo roomID = some g)
    (hlen : ¬(name.length = 0 ∨ 15 < name.length))
    (hrp : getOrCreatePlayerByName repo name = (rp1, rp2))
    (hpx : px = loadSeat rp1 g.playerXID)
    (hpo : po = loadSeat rp1 g.playerOID) :
    (((handleJoinRoom repo roomID name).2 = Except.error collisionMsgX ∨
      (handleJoinRoom repo roomID name).2 = Except.error collisionMsgO) ↔
     ((px ≠ emptyPlayer ∧ strToLower px.name = strToLower (strTrim name)) ∨
      (po ≠ emptyPlayer ∧ strToLower po.name = strToLower (strTrim name)))) ∧
    (¬(px ≠ emptyPlayer ∧ strToLower px.name = strToLower (strTrim name)) →
     ¬(po ≠ emptyPlayer ∧ strToLower po.name = strToLower (strTrim name)) →
     g.status ≠ "in_progress" →
     g.playerOID = none → g.playerXID.getD 0 ≠ rp2.id →
     (handleJoinRoom repo roomID name).2 =
       Except.ok
         ({ g with playerX := px, playerOID := some rp2.id, playerO := rp2 },
          rp2)) ∧
    (¬(px ≠ emptyPlayer ∧ strToLower px.name = strToLower (strTrim name)) →
     ¬(po ≠ emptyPlayer ∧ strToLower po.name = strToLower (strTrim name)) →
     (g.status = "in_progress" ∨ (g.playerXID ≠ none ∧ g.playerOID ≠ none)) →
     handleJoinRoom repo roomID name =
       (rp1, Except.ok ({ g with playerX := px, playerO := po }, rp2))) := by
  subst hpx
  subst hpo
  have hE := handleJoinRoom_existing repo roomID name g hg hlen
  rw [hrp] at hE
  simp only at hE
  refine ⟨?_, ?_, ?_⟩
  · by_cases hc1 : (loadSeat rp1 g.playerXID ≠ emptyPlayer ∧
        strToLower (loadSeat rp1 g.playerXID).name = strToLower (strTrim name))
    · rw [hE, if_pos hc1]
      simp [hc1]
    · rw [hE, if_neg hc1]
      by_cases hc2 : (loadSeat rp1 g.playerOID ≠ emptyPlayer ∧
          strToLower (loadSeat rp1 g.playerOID).name = strToLower (strTrim name))
      · rw [if_pos hc2]
        simp [hc1, hc2, collisionMsgX, collisionMsgO]
      · rw [if_neg hc2]
        by_cases hobs : (g.status = "in_progress" ∨
            (g.playerXID ≠ none ∧ g.playerOID ≠ none))
        · rw [if_pos hobs]
          simp [hc1, hc2]
        · rw [if_neg hobs]
          by_cases hseatO : (g.playerOID = none ∧ g.playerXID.getD 0 ≠ rp2.id)
          · rw [if_pos hseatO]
            simp [hc1, hc2]
          · rw [if_neg hseatO]
            by_cases hxnil : g.playerXID = none
            · rw [if_pos hxnil]
              simp [hc1, hc2]
            · rw [if_neg hxnil]
              simp [hc1, hc2]
  · intro hc1 hc2 hprog ho hxid
    rw [hE, if_neg hc1, if_neg hc2,
      if_neg (show ¬(g.status = "in_progress" ∨
        (g.playerXID ≠ none ∧ g.playerOID ≠ none)) by simp [hprog, ho]),
      if_pos ⟨ho, hxid⟩]
  · intro hc1 hc2 hobs
    rw [hE, if_neg hc1, if_neg hc2, if_pos hobs]

/-- A waiting room with Alice seated at X and seat O open. -/
def gWaitingAlice : Game :=
  ⟨"r1", some 1, aliceP, none, emptyPlayer, none, "waiting",
    "         ".toList, "X"⟩

/-- Concrete store for the join scenarios: the waiting room and Alice. -/
def repoSeated : Repo := ⟨[gWaitingAlice], [aliceP], 2⟩

/-- Counterexample to C7 as stated: "Alice" is already seated in the
waiting room, and her own re-join is rejected with the name-collision
error rather than succeeding as an observer attachment. -/
theorem handleJoinRoom_already_seated_rejected :
    (handleJoinRoom repoSeated "r1" "Alice").2 = Except.error collisionMsgX ∧
    ∀ r, (handleJoinRoom repoSeated "r1" "Alice").2 ≠ Except.ok r := by
  refine ⟨by rfl, ?_⟩
  intro r hcontra
  rw [show (handleJoinRoom repoSeated "r1" "Alice").2 =
    Except.error collisionMsgX from rfl] at hcontra
  exact Except.noConfusion hcontra

/-- Witness for `handleJoinRoom_join_policy`: Bob joins the waiting room
where Alice holds seat X; the seat-O clause seats him as O. -/
theorem handleJoinRoom_join_policy_witness :
    (handleJoinRoom repoSeated "r1" "Bob").2 =
      Except.ok
        ({ gWaitingAlice with
             playerX := aliceP, playerOID := some 2,
             playerO := ⟨2, "Bob", 0, 0, 0⟩ },
         (⟨2, "Bob", 0, 0, 0⟩ : Player)) :=
  (handleJoinRoom_join_policy repoSeated "r1" "Bob" gWaitingAlice
    ⟨[gWaitingAlice], [aliceP, ⟨2, "Bob", 0, 0, 0⟩], 3⟩ ⟨2, "Bob", 0, 0, 0⟩
    aliceP emptyPlayer (by decide) (by decide) (by rfl) (by decide)
    (by decide)).2.1 (by decide) (by decide) (by decide) (by decide) (by decide)

/-! ## Inbound frame dispatch (`Client.readPump`) -/

/-- C5 (amended): an observer connection never mutates the store and never
triggers a broadcast, for any inbound frame; its `move` command is
rejected with the typed error frame sent only to that connection, while
its `reset` command is silently ignored — no error frame is sent for it. -/
theorem observer_policy (repo : Repo) (c : ClientCtx)
    (hobs : c.isObserver = true) :
    (∀ p, processMessage repo c (InMsg.tagged "move" p) =
      (repo, [Effect.errorToSender "Observers cannot make moves"])) ∧
    (∀ p, processMessage repo c (InMsg.tagged "reset" p) = (repo, [])) ∧
    (∀ msg, (processMessage repo c msg).1 = repo ∧
      Effect.broadcast ∉ (processMessage repo c msg).2) := by
  refine ⟨?_, ?_, ?_⟩
  · intro p
    simp [processMessage, hobs]
  · intro p
    simp [processMessage, hobs]
  · intro msg
    cases msg with
    | tagged t pos =>
      unfold processMessage
      by_cases h1 : t = "move"
      · simp [h1, hobs]
      · by_cases h2 : t = "reset"
        · simp [h1, h2, hobs]
        · by_cases h3 : t = "confirmGameStart"
          · simp [h1, h2, h3]
          · by_cases h4 : t = "playAgainRequest"
            · simp [h1, h2, h3, h4, hobs]
            · by_cases h5 : t = "play_again_menu_request"
              · simp [h1, h2, h3, h4, h5, hobs]
              · simp [h1, h2, h3, h4, h5]
    | bareInt n => simp [processMessage, hobs]
    | malformed => simp [processMessage]

/-- Witness for `observer_policy`: a concrete observer in the seated room
gets the typed rejection frame for a `move`. -/
theorem observer_policy_witness :
    processMessage repoSeated ⟨"r1", 3, true⟩ (InMsg.tagged "move" 4) =
      (repoSeated, [Effect.errorToSender "Observers cannot make moves"]) :=
  (observer_policy repoSeated ⟨"r1", 3, true⟩ rfl).1 4

/-- Counterexample to C5 as stated: an observer sending `reset` gets no
frame at all — the command is dropped silently, not rejected with a typed
error frame. -/
theorem observer_reset_silent :
    processMessage repoSeated ⟨"r1", 3, true⟩ (InMsg.tagged "reset" 0) =
      (repoSeated, []) ∧
    ∀ m, Effect.errorToSender m ∉
      (processMessage repoSeated ⟨"r1", 3, true⟩ (InMsg.tagged "reset" 0)).2 := by
  refine ⟨by rfl, ?_⟩
  intro m hm
  rw [show processMessage repoSeated ⟨"r1", 3, true⟩ (InMsg.tagged "reset" 0) =
    (repoSeated, []) from rfl] at hm
  exact List.not_mem_nil _ hm

/-- C6: a reset from a seated (non-observer) client blanks the board, sets
the game in progress with turn X, clears the winner, persists the game,
broadcasts, and leaves every player row — hence all cumulative wins, draws
and losses — untouched; an observer reset leaves the store unchanged. -/
theorem reset_policy (repo : Repo) (c : ClientCtx) (g : Game) (p : Int)
    (hg : findGame repo c.room = some g) :
    (c.isObserver = true →
      processMessage repo c (InMsg.tagged "reset" p) = (repo, [])) ∧
    (c.isObserver = false →
      ∃ g1, (processMessage repo c (InMsg.tagged "reset" p)).2 = [Effect.broadcast] ∧
        findGame (processMessage repo c (InMsg.tagged "reset" p)).1 c.room = some g1 ∧
        g1.board = "         ".toList ∧ g1.status = "in_progress" ∧
        g1.currentTurn = "X" ∧ g1.winnerID = none ∧
        g1.playerXID = g.playerXID ∧ g1.playerOID = g.playerOID ∧
        (processMessage repo c (InMsg.tagged "reset" p)).1.players = repo.players) := by
  constructor
  · intro hobs
    simp [processMessage, hobs]
  · intro hobs
    have hget : getByRoomID repo c.room =
        some { g with playerX := loadSeat repo g.playerXID,
                      playerO := loadSeat repo g.playerOID } := by
      unfold getByRoomID
      rw [hg]
      rfl
    have hreset : resetGame repo c.room =
        (updateGame repo
          { g with playerX := loadSeat repo g.playerXID,
                   playerO := loadSeat repo g.playerOID,
                   board := "         ".toList, status := "in_progress",
                   currentTurn := "X", winnerID := none }, true) := by
      unfold resetGame
      rw [hget]
    have hmsg : processMessage repo c (InMsg.tagged "reset" p) =
        (updateGame repo
          { g with playerX := loadSeat repo g.playerXID,
                   playerO := loadSeat repo g.playerOID,
                   board := "         ".toList, status := "in_progress",
                   currentTurn := "X", winnerID := none }, [Effect.broadcast]) := by
      unfold processMessage
      rw [hobs]
      simp only [hreset]
      simp
    refine ⟨{ g with playerX := loadSeat repo g.playerXID,
                     playerO := loadSeat repo g.playerOID,
                     board := "         ".toList, status := "in_progress",
                     currentTurn := "X", winnerID := none },
      by rw [hmsg], ?_, rfl, rfl, rfl, rfl, rfl, rfl, by rw [hmsg]; rfl⟩
    rw [hmsg]
    have hroom : g.roomID = c.room := findGame_roomID hg
    have hsome : (findGame repo (Game.roomID
        { g with playerX := loadSeat repo g.playerXID,
                 playerO := loadSeat repo g.playerOID,
                 board := "         ".toList, status := "in_progress",
                 currentTurn := "X", winnerID := none })).isSome = true := by
      show (findGame repo g.roomID).isSome = true
      rw [hroom, hg]
      rfl
    have hself := findGame_updateGame_self repo
      { g with playerX := loadSeat repo g.playerXID,
               playerO := loadSeat repo g.playerOID,
               board := "         ".toList, status := "in_progress",
               currentTurn := "X", winnerID := none } hsome
    rw [← hroom]
    exact hself

/-- Witness for `reset_policy`: Alice resets the in-progress concrete room;
the stored game is blank, in progress, turn X, winner cleared. -/
theorem reset_policy_witness :
    (processMessage repoLive ⟨"r1", 1, false⟩ (InMsg.tagged "reset" 0)).2 =
      [Effect.broadcast] ∧
    (processMessage repoLive ⟨"r1", 1, false⟩ (InMsg.tagged "reset" 0)).1.players =
      repoLive.players := by
  obtain ⟨g1, h1, h2, h3, h4, h5, h6, h7, h8, h9⟩ :=
    (reset_policy repoLive ⟨"r1", 1, false⟩ gameLive 0 (by decide)).2 (by decide)
  exact ⟨h1, h9⟩

/-- Every fully validated move returns a game (the winner, draw and
turn-flip branches all succeed). -/
theorem makeMove_success_ok (repo : Repo) (roomID : String) (pid : Nat)
    (pos : Int) (game : Game)
    (h : getByRoomID repo roomID = some game)
    (h1 : game.status = "in_progress")
    (h2 : ¬(pos < 0 ∨ 8 < pos))
    (h3 : boardGet game.board pos.toNat = ' ')
    (hseat : (if game.currentTurn = "X" then game.playerXID else game.playerOID)
      = some pid) :
    ∃ g2, (makeMove repo roomID pid pos).2 = Except.ok g2 := by
  by_cases hw : checkWinner (game.board.set pos.toNat
      (if game.currentTurn = "X" then 'X' else 'O')) = ""
  · by_cases hf : (game.board.set pos.toNat
        (if game.currentTurn = "X" then 'X' else 'O')).contains ' ' = true
    · have hf2 : ' ' ∈ game.board.set pos.toNat
          (if game.currentTurn = "X" then 'X' else 'O') := by
        simpa using hf
      refine ⟨{ game with
          board := game.board.set pos.toNat
            (if game.currentTurn = "X" then 'X' else 'O'),
          currentTurn :=
            if game.currentTurn = "X" then "O"
            else if game.currentTurn = "O" then "X" else "" }, ?_⟩
      unfold makeMove
      rw [h]
      simp [h1, h2, h3, hseat, hw, hf2]
    · have hf2 : ' ' ∉ game.board.set pos.toNat
          (if game.currentTurn = "X" then 'X' else 'O') := by
        simpa using hf
      refine ⟨{ game with
          board := game.board.set pos.toNat
            (if game.currentTurn = "X" then 'X' else 'O'),
          status := "finished" }, ?_⟩
      unfold makeMove
      rw [h]
      simp [h1, h2, h3, hseat, hw, hf2]
  · refine ⟨{ game with
        board := game.board.set pos.toNat
          (if game.currentTurn = "X" then 'X' else 'O'),
        status := "finished",
        winnerID :=
          if checkWinner (game.board.set pos.toNat
              (if game.currentTurn = "X" then 'X' else 'O')) = "X"
          then game.playerXID else game.playerOID }, ?_⟩
    unfold makeMove
    rw [h]
    simp [h1, h2, h3, hseat, hw]

/-- `MakeMove` performs no store write on any error path: every validation
failure returns before the first repository update. -/
theorem makeMove_error_state (repo : Repo) (roomID : String) (pid : Nat)
    (pos : Int) (e : String)
    (he : (makeMove repo roomID pid pos).2 = Except.error e) :
    (makeMove repo roomID pid pos).1 = repo := by
  cases hget : getByRoomID repo roomID with
  | none =>
    unfold makeMove
    simp [hget]
  | some game =>
    by_cases h1 : game.status ≠ "in_progress"
    · unfold makeMove
      simp [hget, h1]
    · by_cases h2 : pos < 0 ∨ 8 < pos
      · unfold makeMove
        simp [hget, h1, h2]
      · by_cases h3 : boardGet game.board pos.toNat ≠ ' '
        · unfold makeMove
          simp [hget, h1, h2, h3]
        · cases hseat : (if game.currentTurn = "X" then game.playerXID
              else game.playerOID) with
          | none =>
            unfold makeMove
            simp [hget, h1, h2, h3, hseat]
          | some eid =>
            by_cases h4 : pid ≠ eid
            · unfold makeMove
              simp [hget, h1, h2, h3, hseat, h4]
            · exfalso
              have hpe : pid = eid := not_not.mp h4
              obtain ⟨g2, hok⟩ := makeMove_success_ok repo roomID pid pos game
                hget (not_not.mp h1) h2 (not_not.mp h3) (by rw [hseat, hpe])
              rw [hok] at he
              exact Except.noConfusion he

/-- C10: a frame whose whole payload is a bare JSON integer is dispatched
by a non-observer connection as `MakeMove(room, playerID, n)`; on success
the updated store is broadcast to the room, and on failure the error is
only logged — no frame of any kind goes back to the sender and the store
is untouched. -/
theorem bareInt_dispatch (repo : Repo) (c : ClientCtx) (n : Int)
    (hobs : c.isObserver = false) :
    ((∃ g2, (makeMove repo c.room c.playerID n).2 = Except.ok g2) →
      processMessage repo c (InMsg.bareInt n) =
        ((makeMove repo c.room c.playerID n).1, [Effect.broadcast])) ∧
    (∀ e, (makeMove repo c.room c.playerID n).2 = Except.error e →
      processMessage repo c (InMsg.bareInt n) = (repo, [])) := by
  constructor
  · rintro ⟨g2, hg2⟩
    unfold processMessage
    rw [hobs]
    cases hM : makeMove repo c.room c.playerID n with
    | mk r1 res =>
      rw [hM] at hg2
      simp only at hg2
      simp [hM, hg2]
  · intro e he
    have hstate := makeMove_error_state repo c.room c.playerID n e he
    unfold processMessage
    rw [hobs]
    cases hM : makeMove repo c.room c.playerID n with
    | mk r1 res =>
      rw [hM] at he hstate
      simp only at he hstate
      simp [hM, he, hstate]

/-- Witness for `bareInt_dispatch`: in the concrete in-progress room, the
bare integer 4 from Alice is applied as her move and broadcast, and the
bare integer 9 (out of bounds) is dropped with no reply and no store
change. -/
theorem bareInt_dispatch_witness :
    processMessage repoLive ⟨"r1", 1, false⟩ (InMsg.bareInt 4) =
      ((makeMove repoLive "r1" 1 4).1, [Effect.broadcast]) ∧
    processMessage repoLive ⟨"r1", 1, false⟩ (InMsg.bareInt 9) =
      (repoLive, []) :=
  ⟨(bareInt_dispatch repoLive ⟨"r1", 1, false⟩ 4 rfl).1
      ⟨{ gameLive with
           board := ("    X    ".toList), currentTurn := "O" }, by rfl⟩,
   (bareInt_dispatch repoLive ⟨"r1", 1, false⟩ 9 rfl).2
      "invalid move: position is out of bounds" (by rfl)⟩

/-! ## The hub: backpressure and the double close -/

/-- A hub with one room holding one client (id 7) whose 256-slot send
buffer is full. -/
def hubFullClient : HubState := ⟨[("r1", [7])], [7], []⟩

/-- C9: the broadcast path does close the send queue of a full client and
drops it from the room without blocking — but the close is not exactly
once: when the readPump of that client later exits, the unregister path of
`Run` closes the same channel a second time (in Go, a panic: close of a
closed channel). -/
theorem hub_double_close :
    (hubBroadcast hubFullClient "r1").rooms = [("r1", [])] ∧
    (hubBroadcast hubFullClient "r1").closes = [7] ∧
    (hubUnregister (hubBroadcast hubFullClient "r1") "r1" 7).closes = [7, 7] ∧
    ((hubUnregister (hubBroadcast hubFullClient "r1") "r1" 7).closes.count 7) = 2 := by
  refine ⟨by decide, by decide, by decide, by decide⟩
